import Mathlib

/-!
Shallow embedding of the multi-workspace configuration core of the n8n-mcp
repository: `src/config/workspace-config.ts` (workspace discovery from
environment variables, default-workspace selection, lookup) and the workspace
API client manager (lazy per-workspace client pool, execution-context
derivation, not-found diagnostics, workspace parameter schema fragment).

Environment snapshots are modelled as ordered association lists of
string-valued variables (iteration order of `Object.entries`); JavaScript
`Map` objects are modelled as ordered association lists with
insertion-order-preserving overwrite; JavaScript string operations used by the
source (`startsWith`, `substring`, `toLowerCase` on ASCII, `join`) are
modelled on the character lists underlying Lean strings.
-/

/-- Lookup in a JavaScript `Map` / plain object: the value stored at key `k`. -/
def mapGet {α : Type} (m : List (String × α)) (k : String) : Option α :=
  match m with
  | [] => none
  | (k', v) :: rest => if k' = k then some v else mapGet rest k

/-- `Map.prototype.set`: overwrite in place when the key is present (keeping the
original insertion position), append otherwise. -/
def mapSet {α : Type} (m : List (String × α)) (k : String) (v : α) :
    List (String × α) :=
  match m with
  | [] => [(k, v)]
  | (k', v') :: rest => if k' = k then (k, v) :: rest else (k', v') :: mapSet rest k v

/-- `Map.prototype.has`. -/
def mapHas {α : Type} (m : List (String × α)) (k : String) : Bool :=
  (mapGet m k).isSome

/-- `Map.prototype.keys()`, in insertion order. -/
def mapKeys {α : Type} (m : List (String × α)) : List String :=
  m.map Prod.fst

/-- JavaScript truthiness of a `string | undefined` value: `undefined` and the
empty string are falsy. -/
def truthy : Option String → Bool
  | none => false
  | some s => s != ""

/-- `s.startsWith(p)` for the ASCII patterns used by the source. -/
def strStartsWith (s p : String) : Bool :=
  List.isPrefixOf p.data s.data

/-- `s.substring(n)`: drop the first `n` code units. -/
def strDrop (s : String) (n : Nat) : String :=
  ⟨s.data.drop n⟩

/-- ASCII case mapping of one character, as JavaScript
`String.prototype.toLowerCase` acts on the ASCII range. -/
def lowerChar (c : Char) : Char :=
  if 65 ≤ c.toNat ∧ c.toNat ≤ 90 then Char.ofNat (c.toNat + 32) else c

/-- `s.toLowerCase()` (ASCII case mapping). -/
def lowerStr (s : String) : String :=
  ⟨s.data.map lowerChar⟩

/-- `Array.prototype.join(sep)`. -/
def joinSep (sep : String) : List String → String
  | [] => ""
  | [a] => a
  | a :: rest => a ++ sep ++ joinSep sep rest

/-- An environment snapshot: `Object.entries(process.env)` in iteration
order. -/
abbrev Env := List (String × String)

/-- `WorkspaceConfig` from `workspace-config.ts`. -/
structure WorkspaceConfig where
  name : String
  url : String
  token : String
  urlEnvVar : String
  tokenEnvVar : String
deriving DecidableEq

/-- `MultiWorkspaceConfig` from `workspace-config.ts`: the registry. -/
structure MultiWorkspaceConfig where
  workspaces : List (String × WorkspaceConfig)
  defaultWorkspace : Option String
deriving DecidableEq

/-- The URL variable pattern `N8N_URL_` (`urlPrefix` in the source). -/
def urlPat : String := "N8N_URL_"

/-- The token variable pattern `N8N_TOKEN_` (`tokenPrefix` in the source). -/
def tokenPat : String := "N8N_TOKEN_"

/-- One iteration of the environment scan loop in `loadWorkspaceConfig`:
the accumulator carries the workspaces map and the list of `logger.warn`
messages emitted so far. -/
def scanStep (env : Env) (acc : List (String × WorkspaceConfig) × List String)
    (entry : String × String) : List (String × WorkspaceConfig) × List String :=
  let envVar := entry.1
  let value := entry.2
  if strStartsWith envVar urlPat && (value != "") then
    let suffix := strDrop envVar urlPat.length
    let workspaceName := lowerStr suffix
    let tokenEnvVar := tokenPat ++ suffix
    let token := mapGet env tokenEnvVar
    if workspaceName == "" || !(truthy token) then
      let warnings :=
        if !(truthy token) then
          acc.2 ++ ["Workspace \x27" ++ workspaceName ++
            "\x27 has URL but missing token (" ++ tokenEnvVar ++ "), skipping"]
        else acc.2
      (acc.1, warnings)
    else
      (mapSet acc.1 workspaceName
        { name := workspaceName, url := value, token := token.getD "",
          urlEnvVar := envVar, tokenEnvVar := tokenEnvVar }, acc.2)
  else acc

/-- The environment scan of `loadWorkspaceConfig`: fold `scanStep` over the
snapshot, returning the workspaces map and the warnings. -/
def scanWorkspaces (env : Env) : List (String × WorkspaceConfig) × List String :=
  env.foldl (scanStep env) ([], [])

/-- The single-instance fallback of `loadWorkspaceConfig`: when the scan
produced no workspaces and both `N8N_API_URL` and `N8N_API_KEY` are truthy,
insert the `"default"` workspace. -/
def applyFallback (env : Env) (workspaces : List (String × WorkspaceConfig)) :
    List (String × WorkspaceConfig) :=
  if workspaces.length == 0 then
    let fallbackUrl := mapGet env "N8N_API_URL"
    let fallbackKey := mapGet env "N8N_API_KEY"
    if truthy fallbackUrl && truthy fallbackKey then
      mapSet workspaces "default"
        { name := "default", url := fallbackUrl.getD "", token := fallbackKey.getD "",
          urlEnvVar := "N8N_API_URL", tokenEnvVar := "N8N_API_KEY" }
    else workspaces
  else workspaces

/-- The default-workspace selection of `loadWorkspaceConfig`: an explicit
truthy `N8N_DEFAULT_WORKSPACE` naming an existing entry wins, otherwise the
first inserted key, otherwise none. -/
def computeDefault (env : Env) (workspaces : List (String × WorkspaceConfig)) :
    Option String :=
  let envDefault := (mapGet env "N8N_DEFAULT_WORKSPACE").map lowerStr
  if truthy envDefault && mapHas workspaces (envDefault.getD "") then
    envDefault
  else if workspaces.length > 0 then
    (workspaces.head?).map Prod.fst
  else
    none

/-- `loadWorkspaceConfig` from `workspace-config.ts`, as a function of the
environment snapshot. -/
def loadWorkspaceConfig (env : Env) : MultiWorkspaceConfig :=
  let workspaces := applyFallback env (scanWorkspaces env).1
  { workspaces := workspaces, defaultWorkspace := computeDefault env workspaces }

/-- `getWorkspace` from `workspace-config.ts`:
`name?.toLowerCase() || config.defaultWorkspace`, then lookup. -/
def getWorkspace (config : MultiWorkspaceConfig) (name : Option String) :
    Option WorkspaceConfig :=
  let workspaceName : Option String :=
    match name with
    | some s => if lowerStr s == "" then config.defaultWorkspace else some (lowerStr s)
    | none => config.defaultWorkspace
  if !(truthy workspaceName) then none
  else mapGet config.workspaces (workspaceName.getD "")

/-- `isMultiWorkspaceMode` from `workspace-config.ts`. -/
def isMultiWorkspaceMode (config : MultiWorkspaceConfig) : Bool :=
  decide (config.workspaces.length > 1)

/-- `getAvailableWorkspaces` from `workspace-config.ts`. -/
def getAvailableWorkspaces (config : MultiWorkspaceConfig) : List String :=
  mapKeys config.workspaces

/-- The `InstanceContext` fields populated by `workspaceToInstanceContext`. -/
structure InstanceContext where
  n8nApiUrl : String
  n8nApiKey : String
  instanceId : String
deriving DecidableEq

/-- `workspaceToInstanceContext` from `workspace-config.ts`. -/
def workspaceToInstanceContext (workspace : WorkspaceConfig) : InstanceContext :=
  { n8nApiUrl := workspace.url, n8nApiKey := workspace.token,
    instanceId := "workspace-" ++ workspace.name }

/-- An `N8nApiClient` handle. The HTTP client itself is an opaque external
collaborator; reference identity of handles is modelled by the `id` field,
a construction counter stamped by the pool at creation time. -/
structure N8nApiClient where
  id : Nat
  baseUrl : String
  apiKey : String
deriving DecidableEq

/-- Mutable state of `WorkspaceApiClientManager`: the `clients` map plus the
construction counter that stamps fresh handles (so `nextId` also counts how
many clients have ever been constructed). -/
structure ManagerState where
  clients : List (String × N8nApiClient)
  nextId : Nat
deriving DecidableEq

/-- `WorkspaceApiClientManager.getOrCreateClient`: return the cached handle
when one exists, otherwise construct a client from the workspace's URL and
token, cache it under the workspace name, and return it. -/
def getOrCreateClient (st : ManagerState) (workspace : WorkspaceConfig) :
    N8nApiClient × ManagerState :=
  match mapGet st.clients workspace.name with
  | some client => (client, st)
  | none =>
    let client : N8nApiClient :=
      { id := st.nextId, baseUrl := workspace.url, apiKey := workspace.token }
    (client, { clients := mapSet st.clients workspace.name client, nextId := st.nextId + 1 })

/-- A sequence of `getOrCreateClient` calls, threading the pool state. -/
def runCalls (st : ManagerState) (calls : List WorkspaceConfig) : ManagerState :=
  calls.foldl (fun s w => (getOrCreateClient s w).2) st

/-- `WorkspaceApiClientManager.getClient`: resolve the workspace then obtain
its pooled client; `none` when the workspace is not found. -/
def getClient (config : MultiWorkspaceConfig) (st : ManagerState)
    (workspaceName : Option String) : Option N8nApiClient × ManagerState :=
  match getWorkspace config workspaceName with
  | none => (none, st)
  | some workspace =>
    let r := getOrCreateClient st workspace
    (some r.1, r.2)

/-- `WorkspaceApiClientManager.getInstanceContext`. -/
def getInstanceContext (config : MultiWorkspaceConfig) (workspaceName : Option String) :
    Option InstanceContext :=
  (getWorkspace config workspaceName).map workspaceToInstanceContext

/-- `WorkspaceApiClientManager.getWorkspaceNotFoundError`. -/
def getWorkspaceNotFoundError (config : MultiWorkspaceConfig)
    (workspaceName : Option String) : String :=
  let available := getAvailableWorkspaces config
  if truthy workspaceName then
    let joined := joinSep ", " available
    "Workspace \x27" ++ workspaceName.getD "" ++
      "\x27 not found. Available workspaces: " ++
      (if joined == "" then "none" else joined)
  else
    "No n8n workspace configured. Set N8N_URL_* and N8N_TOKEN_* env vars, or N8N_API_URL and N8N_API_KEY for single-instance mode."

/-- The record returned by `getWorkspaceParamSchema` in multi-workspace
mode. -/
structure WorkspaceParamSchema where
  type : String
  description : String
  enum : List String
deriving DecidableEq

/-- `getWorkspaceParamSchema`: `none` in single-workspace mode, otherwise a
string-enum parameter descriptor over the available workspace names. -/
def getWorkspaceParamSchema (config : MultiWorkspaceConfig) :
    Option WorkspaceParamSchema :=
  if !(isMultiWorkspaceMode config) then none
  else
    let workspaces := getAvailableWorkspaces config
    let defaultWs := config.defaultWorkspace
    some { type := "string",
           description := "Workspace to use. Available: " ++ joinSep ", " workspaces ++
             (if truthy defaultWs then ". Default: " ++ defaultWs.getD "" else ""),
           enum := workspaces }

/-- The candidate workspace name an environment entry contributes during the
scan, when it passes every check of `scanStep` (URL pattern, truthy value,
non-empty name, truthy paired token): the lower-cased suffix. -/
def validName (env : Env) (entry : String × String) : Option String :=
  if strStartsWith entry.1 urlPat && (entry.2 != "") then
    let suffix := strDrop entry.1 urlPat.length
    let workspaceName := lowerStr suffix
    if workspaceName == "" || !(truthy (mapGet env (tokenPat ++ suffix))) then none
    else some workspaceName
  else none

/-- The workspace record an environment entry contributes when it passes
every check of `scanStep`. -/
def entryConfig (env : Env) (entry : String × String) : WorkspaceConfig :=
  let suffix := strDrop entry.1 urlPat.length
  { name := lowerStr suffix, url := entry.2,
    token := (mapGet env (tokenPat ++ suffix)).getD "",
    urlEnvVar := entry.1, tokenEnvVar := tokenPat ++ suffix }

/-- All candidate names contributed by the scan, in iteration order. -/
def scanNames (env : Env) : List String :=
  env.filterMap (validName env)

/-- The raw (not lower-cased) `<NAME>` suffixes of the environment variables
that pass every check of the scan; the frozen wording of the size property
counts distinct elements of this list. -/
def validSuffixes (env : Env) : List String :=
  env.filterMap (fun entry =>
    if (validName env entry).isSome then some (strDrop entry.1 urlPat.length) else none)

/-- The workspaces map the scan builds, stripped of the warnings accumulator:
`scanStep` inserts `entryConfig` under `validName` and otherwise leaves the
map unchanged. -/
def scanMapAux (env : Env) (m : List (String × WorkspaceConfig)) (l : Env) :
    List (String × WorkspaceConfig) :=
  l.foldl (fun m entry =>
    match validName env entry with
    | some n => mapSet m n (entryConfig env entry)
    | none => m) m

theorem mapGet_cons {α : Type} (p : String × α) (rest : List (String × α)) (k : String) :
    mapGet (p :: rest) k = if p.1 = k then some p.2 else mapGet rest k := by
  obtain ⟨a, b⟩ := p
  rfl

theorem mapSet_cons {α : Type} (p : String × α) (rest : List (String × α)) (k : String)
    (v : α) :
    mapSet (p :: rest) k v =
      if p.1 = k then (k, v) :: rest else p :: mapSet rest k v := by
  obtain ⟨a, b⟩ := p
  rfl

theorem mapKeys_cons {α : Type} (p : String × α) (rest : List (String × α)) :
    mapKeys (p :: rest) = p.1 :: mapKeys rest := rfl

theorem mapGet_mapSet_self {α : Type} (m : List (String × α)) (k : String) (v : α) :
    mapGet (mapSet m k v) k = some v := by
  induction m with
  | nil => simp [mapGet, mapSet]
  | cons p rest ih =>
    by_cases h : p.1 = k
    · simp [mapGet_cons, mapSet_cons, h]
    · simp [mapGet_cons, mapSet_cons, h, ih]

theorem mapGet_mapSet_ne {α : Type} (m : List (String × α)) (k k' : String) (v : α)
    (h : k' ≠ k) : mapGet (mapSet m k v) k' = mapGet m k' := by
  have h' : k ≠ k' := Ne.symm h
  induction m with
  | nil => simp [mapGet, mapSet, h']
  | cons p rest ih =>
    by_cases hp : p.1 = k
    · simp [mapGet_cons, mapSet_cons, hp, h']
    · by_cases hp' : p.1 = k'
      · simp [mapGet_cons, mapSet_cons, hp, hp', h]
      · simp [mapGet_cons, mapSet_cons, hp, hp', ih]

theorem mapGet_ne_none_iff {α : Type} (m : List (String × α)) (k : String) :
    mapGet m k ≠ none ↔ k ∈ mapKeys m := by
  induction m with
  | nil => simp [mapGet, mapKeys]
  | cons p rest ih =>
    by_cases h : p.1 = k
    · simp [mapGet_cons, mapKeys_cons, h]
    · simp [mapGet_cons, mapKeys_cons, h, Ne.symm h, ih]

theorem mapHas_eq_true_iff {α : Type} (m : List (String × α)) (k : String) :
    mapHas m k = true ↔ k ∈ mapKeys m := by
  rw [mapHas, Option.isSome_iff_ne_none, mapGet_ne_none_iff]

theorem mapGet_eq_some_mem {α : Type} (m : List (String × α)) (k : String) (v : α)
    (h : mapGet m k = some v) : (k, v) ∈ m := by
  induction m with
  | nil => simp [mapGet] at h
  | cons p rest ih =>
    rw [mapGet_cons] at h
    by_cases hp : p.1 = k
    · rw [if_pos hp] at h
      obtain rfl : p.2 = v := Option.some.inj h
      obtain ⟨a, b⟩ := p
      obtain rfl : a = k := hp
      exact List.mem_cons_self _ _
    · rw [if_neg hp] at h
      exact List.mem_cons_of_mem _ (ih h)

theorem mapKeys_mapSet {α : Type} (m : List (String × α)) (k : String) (v : α) :
    mapKeys (mapSet m k v) =
      if k ∈ mapKeys m then mapKeys m else mapKeys m ++ [k] := by
  induction m with
  | nil => simp [mapKeys, mapSet]
  | cons p rest ih =>
    by_cases hp : p.1 = k
    · simp [mapKeys_cons, mapSet_cons, mapKeys, hp]
    · rw [mapSet_cons, if_neg hp, mapKeys_cons, mapKeys_cons, ih]
      by_cases hk : k ∈ mapKeys rest
      · simp [hk, List.mem_cons, Ne.symm hp]
      · simp [hk, List.mem_cons, Ne.symm hp]

theorem length_mapKeys {α : Type} (m : List (String × α)) :
    (mapKeys m).length = m.length := by
  simp [mapKeys]

theorem mapGet_head {α : Type} (k : String) (v : α) (rest : List (String × α)) :
    mapGet ((k, v) :: rest) k = some v := by
  simp [mapGet]

theorem char_toNat_ofNat_valid {n : Nat} (h : n.isValidChar) :
    (Char.ofNat n).toNat = n := by
  rw [Char.ofNat, dif_pos h]
  rfl

theorem lowerChar_idem (c : Char) : lowerChar (lowerChar c) = lowerChar c := by
  unfold lowerChar
  by_cases h : 65 ≤ c.toNat ∧ c.toNat ≤ 90
  · rw [if_pos h]
    have hv : Nat.isValidChar (c.toNat + 32) := Or.inl (by omega)
    have ht : (Char.ofNat (c.toNat + 32)).toNat = c.toNat + 32 :=
      char_toNat_ofNat_valid hv
    rw [if_neg]
    rw [ht]
    omega
  · rw [if_neg h, if_neg h]

theorem lowerStr_data (s : String) : (lowerStr s).data = s.data.map lowerChar := rfl

theorem lowerStr_idem (s : String) : lowerStr (lowerStr s) = lowerStr s := by
  apply String.ext
  rw [lowerStr_data, lowerStr_data, List.map_map]
  have : lowerChar ∘ lowerChar = lowerChar := funext lowerChar_idem
  rw [this]

theorem lowerStr_eq_empty_iff (s : String) : lowerStr s = "" ↔ s = "" := by
  rw [String.ext_iff, String.ext_iff, lowerStr_data]
  show s.data.map lowerChar = [] ↔ s.data = []
  simp

theorem strDrop_append (p s : String) :
    strDrop (p ++ s) p.length = s := by
  apply String.ext
  show ((p ++ s).data).drop p.length = s.data
  rw [String.data_append]
  have : p.length = p.data.length := rfl
  rw [this, List.drop_left]

theorem strStartsWith_append (p s : String) :
    strStartsWith (p ++ s) p = true := by
  rw [strStartsWith, String.data_append, List.isPrefixOf_iff_prefix]
  exact List.prefix_append _ _

theorem string_append_ne_empty_left (a b : String) (h : a ≠ "") : a ++ b ≠ "" := by
  intro hc
  apply h
  rw [String.ext_iff] at hc ⊢
  rw [String.data_append] at hc
  exact List.append_eq_nil.mp hc |>.1

theorem joinSep_ne_empty (sep : String) (l : List String) (hne : l ≠ [])
    (h : ∀ x ∈ l, x ≠ "") : joinSep sep l ≠ "" := by
  match l with
  | [] => exact absurd rfl hne
  | [a] => exact h a (List.mem_singleton_self a)
  | a :: b :: t =>
    show a ++ sep ++ joinSep sep (b :: t) ≠ ""
    apply string_append_ne_empty_left
    apply string_append_ne_empty_left
    exact h a (List.mem_cons_self _ _)

theorem bne_empty_iff (s : String) : (s != "") = true ↔ s ≠ "" := by
  simp [bne_iff_ne]

theorem truthy_some (s : String) : truthy (some s) = (s != "") := rfl

theorem truthy_none : truthy none = false := rfl

theorem scanStep_fst (env : Env) (acc : List (String × WorkspaceConfig) × List String)
    (entry : String × String) :
    (scanStep env acc entry).1 =
      match validName env entry with
      | some n => mapSet acc.1 n (entryConfig env entry)
      | none => acc.1 := by
  unfold scanStep validName entryConfig
  by_cases h1 : (strStartsWith entry.1 urlPat && (entry.2 != "")) = true
  · simp only [h1, if_true]
    by_cases h2 : (lowerStr (strDrop entry.1 urlPat.length) == "" ||
        !(truthy (mapGet env (tokenPat ++ strDrop entry.1 urlPat.length)))) = true
    · simp [h2]
    · simp [h2]
  · simp [h1]

theorem scanMapAux_cons (env : Env) (m : List (String × WorkspaceConfig))
    (e : String × String) (t : Env) :
    scanMapAux env m (e :: t) =
      scanMapAux env
        (match validName env e with
         | some n => mapSet m n (entryConfig env e)
         | none => m) t := rfl

theorem scanAux_fst (env : Env) (l : Env)
    (acc : List (String × WorkspaceConfig) × List String) :
    (l.foldl (scanStep env) acc).1 = scanMapAux env acc.1 l := by
  induction l generalizing acc with
  | nil => rfl
  | cons e t ih =>
    rw [List.foldl_cons, ih, scanStep_fst]
    rfl

theorem scanWorkspaces_fst (env : Env) :
    (scanWorkspaces env).1 = scanMapAux env [] env :=
  scanAux_fst env env ([], [])

theorem mapGet_mapSet_ne_none_iff {α : Type} (m : List (String × α)) (k n : String)
    (v : α) : mapGet (mapSet m k v) n ≠ none ↔ (n = k ∨ mapGet m n ≠ none) := by
  by_cases h : n = k
  · subst h
    simp [mapGet_mapSet_self]
  · rw [mapGet_mapSet_ne m k n v h]
    simp [h]

theorem mapGet_scanMapAux_ne_none (env : Env) (l : Env)
    (m : List (String × WorkspaceConfig)) (n : String) :
    mapGet (scanMapAux env m l) n ≠ none ↔
      (mapGet m n ≠ none ∨ n ∈ l.filterMap (validName env)) := by
  induction l generalizing m with
  | nil => simp [scanMapAux]
  | cons e t ih =>
    rw [scanMapAux_cons]
    cases hv : validName env e with
    | none =>
      simp only [hv]
      rw [ih]
      simp [List.filterMap_cons, hv]
    | some nm =>
      simp only [hv]
      rw [ih]
      simp only [List.filterMap_cons, hv, List.mem_cons]
      rw [mapGet_mapSet_ne_none_iff]
      tauto

theorem mapGet_scan_ne_none (env : Env) (n : String) :
    mapGet (scanMapAux env [] env) n ≠ none ↔ n ∈ scanNames env := by
  rw [mapGet_scanMapAux_ne_none]
  simp [mapGet, scanNames]

theorem mapKeys_mapSet_toFinset {α : Type} (m : List (String × α)) (k : String) (v : α) :
    (mapKeys (mapSet m k v)).toFinset = insert k (mapKeys m).toFinset := by
  rw [mapKeys_mapSet]
  by_cases h : k ∈ mapKeys m
  · rw [if_pos h]
    exact (Finset.insert_eq_self.mpr (List.mem_toFinset.mpr h)).symm
  · rw [if_neg h, List.toFinset_append]
    simp [Finset.union_comm, Finset.insert_eq]

theorem mapKeys_mapSet_nodup {α : Type} (m : List (String × α)) (k : String) (v : α)
    (h : (mapKeys m).Nodup) : (mapKeys (mapSet m k v)).Nodup := by
  rw [mapKeys_mapSet]
  by_cases hk : k ∈ mapKeys m
  · rw [if_pos hk]
    exact h
  · rw [if_neg hk]
    simp [List.nodup_append, h, hk]

theorem scanMapAux_keys (env : Env) (l : Env) (m : List (String × WorkspaceConfig))
    (h : (mapKeys m).Nodup) :
    (mapKeys (scanMapAux env m l)).Nodup ∧
    (mapKeys (scanMapAux env m l)).toFinset =
      (mapKeys m).toFinset ∪ (l.filterMap (validName env)).toFinset := by
  induction l generalizing m with
  | nil => simp [scanMapAux, h]
  | cons e t ih =>
    rw [scanMapAux_cons]
    cases hv : validName env e with
    | none =>
      simp only [hv]
      obtain ⟨ha, hb⟩ := ih m h
      refine ⟨ha, ?_⟩
      rw [hb]
      simp [List.filterMap_cons, hv]
    | some nm =>
      simp only [hv]
      obtain ⟨ha, hb⟩ := ih (mapSet m nm (entryConfig env e)) (mapKeys_mapSet_nodup m nm _ h)
      refine ⟨ha, ?_⟩
      rw [hb, mapKeys_mapSet_toFinset]
      simp only [List.filterMap_cons, hv, List.toFinset_cons]
      rw [Finset.insert_union, Finset.union_insert]

theorem scanMap_length (env : Env) :
    (scanMapAux env [] env).length = (scanNames env).dedup.length := by
  obtain ⟨ha, hb⟩ := scanMapAux_keys env env [] (by simp [mapKeys])
  have hlen : (scanMapAux env [] env).length = (mapKeys (scanMapAux env [] env)).length :=
    (length_mapKeys _).symm
  rw [hlen, ← List.toFinset_card_of_nodup ha, hb]
  simp only [mapKeys, List.map_nil, List.toFinset_nil, Finset.empty_union]
  rw [List.card_toFinset]
  rfl

/-- Invariant of every workspaces map the code builds: each stored record's
`name` field equals its key, and every key is a non-empty lower-case name. -/
def GoodMap (m : List (String × WorkspaceConfig)) : Prop :=
  ∀ p ∈ m, p.2.name = p.1 ∧ lowerStr p.1 = p.1 ∧ p.1 ≠ ""

theorem goodMap_mapSet (m : List (String × WorkspaceConfig)) (k : String)
    (v : WorkspaceConfig) (h : GoodMap m) (hv : v.name = k) (hl : lowerStr k = k)
    (hk : k ≠ "") : GoodMap (mapSet m k v) := by
  induction m with
  | nil =>
    intro p hp
    simp only [mapSet, List.mem_singleton] at hp
    subst hp
    exact ⟨hv, hl, hk⟩
  | cons q rest ih =>
    intro p hp
    rw [mapSet_cons] at hp
    by_cases hq : q.1 = k
    · rw [if_pos hq] at hp
      rcases List.mem_cons.mp hp with h1 | h2
      · subst h1
        exact ⟨hv, hl, hk⟩
      · exact h p (List.mem_cons_of_mem _ h2)
    · rw [if_neg hq] at hp
      rcases List.mem_cons.mp hp with h1 | h2
      · subst h1
        exact h p (List.mem_cons_self _ _)
      · exact ih (fun r hr => h r (List.mem_cons_of_mem _ hr)) p h2

theorem validName_eq_some (env : Env) (e : String × String) (n : String)
    (h : validName env e = some n) :
    n = lowerStr (strDrop e.1 urlPat.length) ∧ n ≠ "" ∧ (entryConfig env e).name = n := by
  unfold validName at h
  by_cases h1 : (strStartsWith e.1 urlPat && (e.2 != "")) = true
  · simp only [h1, if_true] at h
    by_cases h2 : (lowerStr (strDrop e.1 urlPat.length) == "" ||
        !(truthy (mapGet env (tokenPat ++ strDrop e.1 urlPat.length)))) = true
    · simp [h2] at h
    · simp only [h2, if_false, Bool.false_eq_true, Option.some.injEq] at h
      have hne : lowerStr (strDrop e.1 urlPat.length) ≠ "" := by
        intro hc
        apply h2
        simp [hc]
      refine ⟨h.symm, ?_, ?_⟩
      · rw [← h]
        exact hne
      · rw [entryConfig, ← h]
  · simp [h1] at h

theorem goodMap_scanMapAux (env : Env) (l : Env) (m : List (String × WorkspaceConfig))
    (h : GoodMap m) : GoodMap (scanMapAux env m l) := by
  induction l generalizing m with
  | nil => exact h
  | cons e t ih =>
    rw [scanMapAux_cons]
    cases hv : validName env e with
    | none =>
      simp only [hv]
      exact ih _ h
    | some nm =>
      simp only [hv]
      apply ih
      obtain ⟨h1, h2, h3⟩ := validName_eq_some env e nm hv
      exact goodMap_mapSet _ _ _ h h3 (by rw [h1]; exact lowerStr_idem _) h2

theorem length_eq_zero_iff_nil {α : Type} (l : List α) :
    (l.length == 0) = true ↔ l = [] := by
  cases l <;> simp

theorem applyFallback_of_ne_nil (env : Env) (ws : List (String × WorkspaceConfig))
    (h : ws ≠ []) : applyFallback env ws = ws := by
  unfold applyFallback
  rw [if_neg]
  intro hc
  exact h ((length_eq_zero_iff_nil ws).mp hc)

theorem goodMap_applyFallback (env : Env) (ws : List (String × WorkspaceConfig))
    (h : GoodMap ws) : GoodMap (applyFallback env ws) := by
  unfold applyFallback
  by_cases h0 : (ws.length == 0) = true
  · rw [if_pos h0]
    by_cases h1 : (truthy (mapGet env "N8N_API_URL") && truthy (mapGet env "N8N_API_KEY")) = true
    · simp only [h1, if_true]
      exact goodMap_mapSet ws "default" _ h rfl (by decide) (by decide)
    · simp only [h1]
      simp only [Bool.false_eq_true, if_false]
      exact h
  · rw [if_neg h0]
    exact h

theorem goodMap_load (env : Env) : GoodMap (loadWorkspaceConfig env).workspaces := by
  show GoodMap (applyFallback env (scanWorkspaces env).1)
  apply goodMap_applyFallback
  rw [scanWorkspaces_fst]
  apply goodMap_scanMapAux
  intro p hp
  simp at hp

theorem load_key_facts (env : Env) (k : String) (w : WorkspaceConfig)
    (h : mapGet (loadWorkspaceConfig env).workspaces k = some w) :
    w.name = k ∧ lowerStr k = k ∧ k ≠ "" :=
  goodMap_load env (k, w) (mapGet_eq_some_mem _ _ _ h)

theorem mem_keys_applyFallback (env : Env) (ws : List (String × WorkspaceConfig))
    (k : String) (h : k ∈ mapKeys (applyFallback env ws)) :
    k ∈ mapKeys ws ∨ k = "default" := by
  unfold applyFallback at h
  by_cases h0 : (ws.length == 0) = true
  · rw [if_pos h0] at h
    obtain rfl : ws = [] := (length_eq_zero_iff_nil ws).mp h0
    by_cases h1 : (truthy (mapGet env "N8N_API_URL") && truthy (mapGet env "N8N_API_KEY")) = true
    · simp only [h1, if_true] at h
      simp only [mapSet, mapKeys, List.map_cons, List.map_nil, List.mem_singleton] at h
      exact Or.inr h
    · simp only [h1, Bool.false_eq_true, if_false] at h
      exact Or.inl h
  · rw [if_neg h0] at h
    exact Or.inl h

theorem load_workspaces_eq (env : Env) :
    (loadWorkspaceConfig env).workspaces = applyFallback env (scanWorkspaces env).1 := rfl

theorem load_default_eq (env : Env) :
    (loadWorkspaceConfig env).defaultWorkspace =
      computeDefault env (applyFallback env (scanWorkspaces env).1) := rfl

theorem computeDefault_mem (env : Env) (ws : List (String × WorkspaceConfig))
    (d : String) (h : computeDefault env ws = some d) : mapHas ws d = true := by
  unfold computeDefault at h
  by_cases h1 : (truthy ((mapGet env "N8N_DEFAULT_WORKSPACE").map lowerStr) &&
      mapHas ws (((mapGet env "N8N_DEFAULT_WORKSPACE").map lowerStr).getD "")) = true
  · simp only [h1, if_true] at h
    rw [Bool.and_eq_true] at h1
    obtain ⟨hl, hr⟩ := h1
    rw [h] at hr
    simpa using hr
  · rw [Bool.not_eq_true] at h1
    simp only [h1, Bool.false_eq_true, if_false] at h
    by_cases h2 : ws.length > 0
    · rw [if_pos h2] at h
      cases ws with
      | nil => simp at h2
      | cons p rest =>
        have hd : p.1 = d := by simpa using h
        rw [mapHas, mapGet_cons, if_pos hd]
        rfl
    · rw [if_neg h2] at h
      simp at h

theorem getOrCreateClient_cached (st : ManagerState) (w : WorkspaceConfig)
    (c : N8nApiClient) (h : mapGet st.clients w.name = some c) :
    getOrCreateClient st w = (c, st) := by
  unfold getOrCreateClient
  rw [h]

theorem getOrCreateClient_self (st : ManagerState) (w : WorkspaceConfig) :
    mapGet (getOrCreateClient st w).2.clients w.name =
      some (getOrCreateClient st w).1 := by
  unfold getOrCreateClient
  cases h : mapGet st.clients w.name with
  | some c => simpa using h
  | none => simp [mapGet_mapSet_self]

theorem runCalls_preserves (calls : List WorkspaceConfig) (st : ManagerState)
    (n : String) (c : N8nApiClient) (h : mapGet st.clients n = some c) :
    mapGet (runCalls st calls).clients n = some c := by
  induction calls generalizing st with
  | nil => exact h
  | cons w t ih =>
    have hstep : mapGet ((getOrCreateClient st w).2).clients n = some c := by
      unfold getOrCreateClient
      cases hg : mapGet st.clients w.name with
      | some c' => simpa using h
      | none =>
        have hne : n ≠ w.name := by
          intro hh
          rw [hh, hg] at h
          cases h
        simp only []
        rw [mapGet_mapSet_ne _ _ _ _ hne]
        exact h
    exact ih ((getOrCreateClient st w).2) hstep

/-- Concrete environment snapshots used as witnesses and counterexamples. -/
def envPersonal : Env := [("N8N_URL_PERSONAL", "https://a"), ("N8N_TOKEN_PERSONAL", "tok-a")]

def envTwo : Env :=
  [("N8N_URL_A", "u1"), ("N8N_TOKEN_A", "t1"), ("N8N_URL_B", "u2"),
   ("N8N_TOKEN_B", "t2"), ("N8N_DEFAULT_WORKSPACE", "B")]

def envCollide : Env :=
  [("N8N_URL_A", "u1"), ("N8N_TOKEN_A", "t1"), ("N8N_URL_a", "u2"), ("N8N_TOKEN_a", "t2")]

def envMissingToken : Env :=
  [("N8N_URL_A", "u"), ("N8N_URL_a", "u2"), ("N8N_TOKEN_a", "t")]

def envUrlOnly : Env := [("N8N_URL_A", "u")]

def envFallbackOnly : Env := [("N8N_API_URL", "fu"), ("N8N_API_KEY", "fk")]

def envEmptySuffix : Env := [("N8N_URL_", "u"), ("N8N_TOKEN_", "t")]

/-- The workspace record discovered from `envPersonal`. -/
def wPersonal : WorkspaceConfig :=
  { name := "personal", url := "https://a", token := "tok-a",
    urlEnvVar := "N8N_URL_PERSONAL", tokenEnvVar := "N8N_TOKEN_PERSONAL" }

/-- A fresh, empty client pool. -/
def mgr0 : ManagerState := { clients := [], nextId := 0 }

/-- C1: calling the pool's `getOrCreateClient` twice with the same workspace
name returns the identical client handle both times, the second call performs
no new construction (the pool state, including the construction counter, is
unchanged), and once a handle has been created for a name, any further
sequence of calls leaves that very handle cached under the name — so at most
one client is ever constructed per workspace name for the lifetime of the
pool. -/
theorem claim_c1_pool_at_most_one_client (st : ManagerState)
    (w1 w2 : WorkspaceConfig) (calls : List WorkspaceConfig)
    (h : w1.name = w2.name) :
    (getOrCreateClient (getOrCreateClient st w1).2 w2).1 = (getOrCreateClient st w1).1 ∧
    (getOrCreateClient (getOrCreateClient st w1).2 w2).2 = (getOrCreateClient st w1).2 ∧
    mapGet (runCalls (getOrCreateClient st w1).2 calls).clients w1.name =
      some (getOrCreateClient st w1).1 := by
  have hself := getOrCreateClient_self st w1
  have hsec : getOrCreateClient (getOrCreateClient st w1).2 w2 =
      ((getOrCreateClient st w1).1, (getOrCreateClient st w1).2) := by
    apply getOrCreateClient_cached
    rw [← h]
    exact hself
  exact ⟨by rw [hsec], by rw [hsec], runCalls_preserves calls _ _ _ hself⟩

theorem claim_c1_witness :
    wPersonal.name = wPersonal.name ∧
    ((getOrCreateClient (getOrCreateClient mgr0 wPersonal).2 wPersonal).1 =
        (getOrCreateClient mgr0 wPersonal).1 ∧
     (getOrCreateClient (getOrCreateClient mgr0 wPersonal).2 wPersonal).2 =
        (getOrCreateClient mgr0 wPersonal).2 ∧
     mapGet (runCalls (getOrCreateClient mgr0 wPersonal).2 [wPersonal]).clients
        wPersonal.name = some (getOrCreateClient mgr0 wPersonal).1) :=
  ⟨rfl, claim_c1_pool_at_most_one_client mgr0 wPersonal wPersonal [wPersonal] rfl⟩

/-- C5: when the `N8N_URL_*`/`N8N_TOKEN_*` scan produces zero entries and both
`N8N_API_URL` and `N8N_API_KEY` are present and non-empty, `loadWorkspaceConfig`
returns a registry with exactly one entry, keyed `"default"`, whose url and
token are the values of those two fallback variables. -/
theorem claim_c5_single_fallback (env : Env) (u k : String)
    (h0 : (scanWorkspaces env).1 = [])
    (hu : mapGet env "N8N_API_URL" = some u) (hu' : u ≠ "")
    (hk : mapGet env "N8N_API_KEY" = some k) (hk' : k ≠ "") :
    (loadWorkspaceConfig env).workspaces =
      [("default", { name := "default", url := u, token := k,
                     urlEnvVar := "N8N_API_URL", tokenEnvVar := "N8N_API_KEY" })] := by
  rw [load_workspaces_eq, h0]
  unfold applyFallback
  rw [if_pos (by decide)]
  have hcond : (truthy (mapGet env "N8N_API_URL") &&
      truthy (mapGet env "N8N_API_KEY")) = true := by
    rw [hu, hk, Bool.and_eq_true]
    exact ⟨(bne_empty_iff u).mpr hu', (bne_empty_iff k).mpr hk'⟩
  rw [hu, hk] at hcond
  simp only [hu, hk, hcond, if_true]
  rfl

theorem claim_c5_witness :
    (scanWorkspaces envFallbackOnly).1 = [] ∧
    mapGet envFallbackOnly "N8N_API_URL" = some "fu" ∧ ("fu" : String) ≠ "" ∧
    mapGet envFallbackOnly "N8N_API_KEY" = some "fk" ∧ ("fk" : String) ≠ "" ∧
    (loadWorkspaceConfig envFallbackOnly).workspaces =
      [("default", { name := "default", url := "fu", token := "fk",
                     urlEnvVar := "N8N_API_URL", tokenEnvVar := "N8N_API_KEY" })] :=
  ⟨by decide, by decide, by decide, by decide, by decide,
   claim_c5_single_fallback envFallbackOnly "fu" "fk" (by decide) (by decide)
     (by decide) (by decide) (by decide)⟩

/-- C10: an environment variable whose key is exactly the URL pattern
`N8N_URL_` (empty `<NAME>` suffix) with a non-empty value creates no entry,
even when the paired credential variable `N8N_TOKEN_` is present and
non-empty: its scan step leaves both the workspaces map and the warnings
untouched (no missing-token diagnostic), and the empty name is never a key of
the resulting registry. -/
theorem claim_c10_empty_suffix (env : Env) (v t : String)
    (acc : List (String × WorkspaceConfig) × List String)
    (hv : v ≠ "") (ht : mapGet env tokenPat = some t) (ht' : t ≠ "") :
    scanStep env acc (urlPat, v) = acc ∧
    mapGet (loadWorkspaceConfig env).workspaces "" = none := by
  constructor
  · have h1 : (strStartsWith urlPat urlPat && (v != "")) = true := by
      rw [Bool.and_eq_true]
      exact ⟨by decide, (bne_empty_iff v).mpr hv⟩
    unfold scanStep
    simp only [h1, if_true]
    have hs : (lowerStr (strDrop urlPat urlPat.length) == "") = true := by decide
    have htok : tokenPat ++ strDrop urlPat urlPat.length = tokenPat := by decide
    simp only [htok, hs, Bool.true_or, if_true, ht]
    have htr : (!(truthy (some t))) = false := by
      simp [truthy, ht']
    simp only [htr, Bool.false_eq_true, if_false]
  · cases hget : mapGet (loadWorkspaceConfig env).workspaces "" with
    | none => rfl
    | some w => exact absurd (load_key_facts env "" w hget).2.2 (by simp)

theorem claim_c10_witness :
    ("u" : String) ≠ "" ∧ mapGet envEmptySuffix tokenPat = some "t" ∧
    ("t" : String) ≠ "" ∧
    scanStep envEmptySuffix ([], []) (urlPat, "u") = ([], []) ∧
    mapGet (loadWorkspaceConfig envEmptySuffix).workspaces "" = none :=
  ⟨by decide, by decide, by decide,
   (claim_c10_empty_suffix envEmptySuffix "u" "t" ([], []) (by decide) (by decide)
     (by decide)).1,
   (claim_c10_empty_suffix envEmptySuffix "u" "t" ([], []) (by decide) (by decide)
     (by decide)).2⟩

/-- C9: calling `getWorkspace` with the empty string behaves exactly like
calling it with no name: the empty string is falsy, so the lookup falls back
to the default workspace, returning the default's definition when one exists
and `null` otherwise, rather than looking up the empty string as a workspace
name. -/
theorem claim_c9_empty_name (cfg : MultiWorkspaceConfig) (d : String)
    (w : WorkspaceConfig) :
    getWorkspace cfg (some "") = getWorkspace cfg none ∧
    (cfg.defaultWorkspace = none → getWorkspace cfg (some "") = none) ∧
    (cfg.defaultWorkspace = some d → d ≠ "" → mapGet cfg.workspaces d = some w →
      getWorkspace cfg (some "") = some w) := by
  have hempty : (lowerStr "" == "") = true := by decide
  refine ⟨?_, ?_, ?_⟩
  · unfold getWorkspace
    simp only [hempty, if_true]
  · intro h
    unfold getWorkspace
    simp only [hempty, if_true, h]
    rfl
  · intro h1 h2 h3
    unfold getWorkspace
    simp only [hempty, if_true, h1]
    have htr : (!(truthy (some d))) = false := by simp [truthy, h2]
    simp only [htr, Bool.false_eq_true, if_false]
    simpa using h3

theorem claim_c9_witness :
    (loadWorkspaceConfig envPersonal).defaultWorkspace = some "personal" ∧
    ("personal" : String) ≠ "" ∧
    mapGet (loadWorkspaceConfig envPersonal).workspaces "personal" = some wPersonal ∧
    getWorkspace (loadWorkspaceConfig envPersonal) (some "") = some wPersonal :=
  ⟨by decide, by decide, by decide,
   (claim_c9_empty_name (loadWorkspaceConfig envPersonal) "personal" wPersonal).2.2
     (by decide) (by decide) (by decide)⟩

/-- C8: `isMultiWorkspaceMode` is true exactly when the workspaces map has
size strictly greater than one, and the workspace-parameter schema fragment
is produced exactly in that case, with its enum equal to the ordered list of
available workspace names; with size at most one the fragment is `none`. -/
theorem claim_c8_schema_fragment (cfg : MultiWorkspaceConfig)
    (f : WorkspaceParamSchema) :
    (isMultiWorkspaceMode cfg = true ↔ 1 < cfg.workspaces.length) ∧
    (getWorkspaceParamSchema cfg).isSome = isMultiWorkspaceMode cfg ∧
    (getWorkspaceParamSchema cfg = some f → f.enum = getAvailableWorkspaces cfg) ∧
    (cfg.workspaces.length ≤ 1 → getWorkspaceParamSchema cfg = none) := by
  refine ⟨by simp [isMultiWorkspaceMode], ?_, ?_, ?_⟩
  · unfold getWorkspaceParamSchema
    cases hm : isMultiWorkspaceMode cfg with
    | true => simp [hm]
    | false => simp [hm]
  · intro hf
    unfold getWorkspaceParamSchema at hf
    cases hm : isMultiWorkspaceMode cfg with
    | true =>
      rw [hm] at hf
      simp only [Bool.not_true, Bool.false_eq_true, if_false] at hf
      obtain heq := Option.some.inj hf
      rw [← heq]
    | false =>
      rw [hm] at hf
      simp at hf
  · intro hlen
    have hm : isMultiWorkspaceMode cfg = false := by
      simp [isMultiWorkspaceMode]
      omega
    unfold getWorkspaceParamSchema
    simp [hm]

/-- The schema fragment produced for `envTwo`. -/
def schemaTwo : WorkspaceParamSchema :=
  { type := "string", description := "Workspace to use. Available: a, b. Default: b",
    enum := ["a", "b"] }

theorem claim_c8_witness :
    getWorkspaceParamSchema (loadWorkspaceConfig envTwo) = some schemaTwo ∧
    schemaTwo.enum = getAvailableWorkspaces (loadWorkspaceConfig envTwo) :=
  ⟨by decide,
   (claim_c8_schema_fragment (loadWorkspaceConfig envTwo) schemaTwo).2.2.1 (by decide)⟩

/-- C2 fails as frozen: in `envCollide` the suffixes `A` and `a` are two
distinct valid `<NAME>` suffixes, each with a non-empty paired token, yet both
lower-case to the single workspace name `a`, so the map has size 1 while the
distinct-valid-suffix count is 2. -/
theorem claim_c2_counterexample :
    scanNames envCollide ≠ [] ∧
    (loadWorkspaceConfig envCollide).workspaces.length ≠
      (validSuffixes envCollide).dedup.length := by decide

/-- C2 (amended): for every environment snapshot with at least one valid
URL/credential pair, the workspaces map has size equal to the number of
distinct *lower-cased* valid `<NAME>` suffixes, and every key of the map is
lower-case. -/
theorem claim_c2_amended (env : Env) (k : String) (h : scanNames env ≠ [])
    (hk : k ∈ mapKeys (loadWorkspaceConfig env).workspaces) :
    (loadWorkspaceConfig env).workspaces.length = (scanNames env).dedup.length ∧
    lowerStr k = k := by
  have hmap : (scanWorkspaces env).1 ≠ [] := by
    obtain ⟨n, hn⟩ := List.exists_mem_of_ne_nil _ h
    have hne : mapGet (scanMapAux env [] env) n ≠ none := (mapGet_scan_ne_none env n).mpr hn
    rw [← scanWorkspaces_fst] at hne
    intro hc
    rw [hc] at hne
    exact hne rfl
  constructor
  · rw [load_workspaces_eq, applyFallback_of_ne_nil env _ hmap, scanWorkspaces_fst,
       scanMap_length]
  · have hne : mapGet (loadWorkspaceConfig env).workspaces k ≠ none :=
      (mapGet_ne_none_iff _ _).mpr hk
    obtain ⟨w, hw⟩ := Option.ne_none_iff_exists'.mp hne
    exact (load_key_facts env k w hw).2.1

theorem claim_c2_witness :
    scanNames envTwo ≠ [] ∧
    ("a" : String) ∈ mapKeys (loadWorkspaceConfig envTwo).workspaces ∧
    ((loadWorkspaceConfig envTwo).workspaces.length = (scanNames envTwo).dedup.length ∧
     lowerStr "a" = "a") :=
  ⟨by decide, by decide, claim_c2_amended envTwo "a" (by decide) (by decide)⟩

/-- C3: the default workspace is the lower-cased `N8N_DEFAULT_WORKSPACE` when
that names an existing entry, otherwise the first-inserted entry's name when
any entries exist, otherwise `none`; and a non-null default is always a key
of the workspaces map. -/
theorem claim_c3_default_selection (env : Env) (d s : String) :
    (mapGet env "N8N_DEFAULT_WORKSPACE" = some d →
      mapHas (loadWorkspaceConfig env).workspaces (lowerStr d) = true →
      (loadWorkspaceConfig env).defaultWorkspace = some (lowerStr d)) ∧
    ((truthy ((mapGet env "N8N_DEFAULT_WORKSPACE").map lowerStr) &&
        mapHas (loadWorkspaceConfig env).workspaces
          (((mapGet env "N8N_DEFAULT_WORKSPACE").map lowerStr).getD "")) = false →
      (loadWorkspaceConfig env).workspaces ≠ [] →
      (loadWorkspaceConfig env).defaultWorkspace =
        ((loadWorkspaceConfig env).workspaces.head?).map Prod.fst) ∧
    ((loadWorkspaceConfig env).workspaces = [] →
      (loadWorkspaceConfig env).defaultWorkspace = none) ∧
    ((loadWorkspaceConfig env).defaultWorkspace = some s →
      mapHas (loadWorkspaceConfig env).workspaces s = true) := by
  refine ⟨?_, ?_, ?_, ?_⟩
  · intro h1 h2
    have hne : mapGet (loadWorkspaceConfig env).workspaces (lowerStr d) ≠ none := by
      rw [mapGet_ne_none_iff]
      exact (mapHas_eq_true_iff _ _).mp h2
    obtain ⟨w, hw⟩ := Option.ne_none_iff_exists'.mp hne
    have hdne : lowerStr d ≠ "" := (load_key_facts env _ w hw).2.2
    rw [load_default_eq]
    unfold computeDefault
    rw [← load_workspaces_eq]
    have hcond : (truthy ((mapGet env "N8N_DEFAULT_WORKSPACE").map lowerStr) &&
        mapHas (loadWorkspaceConfig env).workspaces
          (((mapGet env "N8N_DEFAULT_WORKSPACE").map lowerStr).getD "")) = true := by
      rw [h1, Bool.and_eq_true]
      exact ⟨(bne_empty_iff _).mpr hdne, by simpa using h2⟩
    rw [h1] at hcond ⊢
    simp only [hcond, if_true]
    rfl
  · intro hcond hne
    rw [load_default_eq]
    unfold computeDefault
    rw [← load_workspaces_eq]
    simp only [hcond, Bool.false_eq_true, if_false]
    rw [if_pos (List.length_pos.mpr hne)]
  · intro hnil
    rw [load_default_eq]
    unfold computeDefault
    rw [← load_workspaces_eq, hnil]
    simp [mapHas, mapGet]
  · intro h
    rw [load_default_eq] at h
    have hmem := computeDefault_mem env _ s h
    rw [← load_workspaces_eq] at hmem
    exact hmem

theorem claim_c3_witness :
    mapGet envTwo "N8N_DEFAULT_WORKSPACE" = some "B" ∧
    mapHas (loadWorkspaceConfig envTwo).workspaces (lowerStr "B") = true ∧
    (loadWorkspaceConfig envTwo).defaultWorkspace = some (lowerStr "B") :=
  ⟨by decide, by decide,
   (claim_c3_default_selection envTwo "B" "b").1 (by decide) (by decide)⟩

/-- C4 fails as frozen: in `envMissingToken`, `N8N_URL_A` is present with a
non-empty value and its paired `N8N_TOKEN_A` is missing, yet the lower-cased
name `a` is present in the resulting map, because the distinct variable
`N8N_URL_a` (with its valid pair `N8N_TOKEN_a`) lower-cases to the same
name. -/
theorem claim_c4_counterexample :
    mapGet envMissingToken "N8N_URL_A" = some "u" ∧ ("u" : String) ≠ "" ∧
    mapGet envMissingToken "N8N_TOKEN_A" = none ∧
    mapGet (loadWorkspaceConfig envMissingToken).workspaces (lowerStr "A") ≠ none := by
  decide

/-- C4 (amended): a URL variable present with a non-empty value whose paired
token variable is missing or empty creates no entry: its scan step leaves
the workspaces map unchanged and only appends the missing-token diagnostic
(the candidate is dropped, not stored partially, and the total scan never
aborts); moreover the lower-cased name is absent from the resulting map
provided no other URL variable lower-casing to the same name forms a valid
pair and the name is not the `"default"` synthesized by the single-instance
fallback. -/
theorem claim_c4_amended (env : Env) (s v : String)
    (acc : List (String × WorkspaceConfig) × List String)
    (hv : v ≠ "") (ht : truthy (mapGet env (tokenPat ++ s)) = false)
    (hnm : lowerStr s ∉ scanNames env) (hnd : lowerStr s ≠ "default") :
    (scanStep env acc (urlPat ++ s, v)).1 = acc.1 ∧
    (scanStep env acc (urlPat ++ s, v)).2 = acc.2 ++
      ["Workspace \x27" ++ lowerStr s ++ "\x27 has URL but missing token (" ++
        (tokenPat ++ s) ++ "), skipping"] ∧
    mapGet (loadWorkspaceConfig env).workspaces (lowerStr s) = none := by
  have h1 : (strStartsWith (urlPat ++ s) urlPat && (v != "")) = true := by
    rw [Bool.and_eq_true]
    exact ⟨strStartsWith_append urlPat s, (bne_empty_iff v).mpr hv⟩
  have hsuf : strDrop (urlPat ++ s) urlPat.length = s := strDrop_append urlPat s
  have hnt : (!(truthy (mapGet env (tokenPat ++ s)))) = true := by rw [ht]; rfl
  refine ⟨?_, ?_, ?_⟩
  · unfold scanStep
    simp only [h1, if_true, hsuf, hnt, Bool.or_true, if_true]
  · unfold scanStep
    simp only [h1, if_true, hsuf, hnt, Bool.or_true, if_true]
  · cases hget : mapGet (loadWorkspaceConfig env).workspaces (lowerStr s) with
    | none => rfl
    | some w =>
      exfalso
      have hmem : lowerStr s ∈ mapKeys (loadWorkspaceConfig env).workspaces := by
        rw [← mapGet_ne_none_iff, hget]
        simp
      rw [load_workspaces_eq] at hmem
      rcases mem_keys_applyFallback env _ _ hmem with hh | hh
      · rw [scanWorkspaces_fst] at hh
        have hin := (mapGet_ne_none_iff _ _).mpr hh
        rw [mapGet_scan_ne_none] at hin
        exact hnm hin
      · exact hnd hh

theorem claim_c4_witness :
    ("u" : String) ≠ "" ∧
    truthy (mapGet envUrlOnly (tokenPat ++ "A")) = false ∧
    lowerStr "A" ∉ scanNames envUrlOnly ∧ lowerStr "A" ≠ "default" ∧
    mapGet (loadWorkspaceConfig envUrlOnly).workspaces (lowerStr "A") = none :=
  ⟨by decide, by decide, by decide, by decide,
   (claim_c4_amended envUrlOnly "A" "u" ([], []) (by decide) (by decide) (by decide)
     (by decide)).2.2⟩

theorem load_keys_ne_empty (env : Env) (x : String)
    (hx : x ∈ mapKeys (loadWorkspaceConfig env).workspaces) : x ≠ "" := by
  have hne : mapGet (loadWorkspaceConfig env).workspaces x ≠ none :=
    (mapGet_ne_none_iff _ _).mpr hx
  obtain ⟨w, hw⟩ := Option.ne_none_iff_exists'.mp hne
  exact (load_key_facts env x w hw).2.2

theorem getWorkspace_some_of_ne (cfg : MultiWorkspaceConfig) (s : String) (hs : s ≠ "") :
    getWorkspace cfg (some s) = mapGet cfg.workspaces (lowerStr s) := by
  have hls : lowerStr s ≠ "" := fun hc => hs ((lowerStr_eq_empty_iff s).mp hc)
  have hb : (lowerStr s == "") = false := by
    simp [hls]
  unfold getWorkspace
  simp only [hb, Bool.false_eq_true, if_false]
  have htr : (!(truthy (some (lowerStr s)))) = false := by simp [truthy, hls]
  simp only [htr, Bool.false_eq_true, if_false]
  rfl

/-- C6 fails as frozen: the empty string, supplied as a name, is absent from
the registry after lower-casing, yet resolution returns a context — the
falsy empty name falls back to the default workspace instead of producing a
not-found result. -/
theorem claim_c6_counterexample :
    mapGet (loadWorkspaceConfig envPersonal).workspaces (lowerStr "") = none ∧
    getInstanceContext (loadWorkspaceConfig envPersonal) (some "") ≠ none := by
  decide

/-- C6 (amended): for every registry and every *non-empty* supplied name
absent from it after lower-casing, resolution returns a not-found result
(`getInstanceContext` yields `none` and `getClient` yields `none` leaving the
pool untouched) rather than a context; the not-found message for a supplied
name lists the full current list of available workspace names, or `"none"`
when the registry is empty; and with no name supplied and no default the
result is not-found with the fixed generic no-workspace-configured message.
Resolution is a total function: it always returns a value. -/
theorem claim_c6_amended (cfg : MultiWorkspaceConfig) (st : ManagerState) (env : Env)
    (s t : String) :
    (s ≠ "" → mapGet cfg.workspaces (lowerStr s) = none →
      getInstanceContext cfg (some s) = none ∧ getClient cfg st (some s) = (none, st)) ∧
    (cfg.defaultWorkspace = none →
      getInstanceContext cfg none = none ∧
      getWorkspaceNotFoundError cfg none =
        "No n8n workspace configured. Set N8N_URL_* and N8N_TOKEN_* env vars, or N8N_API_URL and N8N_API_KEY for single-instance mode.") ∧
    (t ≠ "" →
      getWorkspaceNotFoundError (loadWorkspaceConfig env) (some t) =
        "Workspace \x27" ++ t ++ "\x27 not found. Available workspaces: " ++
          (if getAvailableWorkspaces (loadWorkspaceConfig env) = [] then "none"
           else joinSep ", " (getAvailableWorkspaces (loadWorkspaceConfig env)))) := by
  refine ⟨?_, ?_, ?_⟩
  · intro hs hnone
    have hgw : getWorkspace cfg (some s) = none := by
      rw [getWorkspace_some_of_ne cfg s hs, hnone]
    constructor
    · rw [getInstanceContext, hgw]
      rfl
    · rw [getClient, hgw]
  · intro hd
    constructor
    · rw [getInstanceContext]
      unfold getWorkspace
      rw [hd]
      rfl
    · rfl
  · intro ht
    have htr : truthy (some t) = true := by simp [truthy, ht]
    rw [getWorkspaceNotFoundError]
    simp only [htr, if_true]
    congr 1
    cases havail : getAvailableWorkspaces (loadWorkspaceConfig env) with
    | nil => simp [joinSep]
    | cons a rest =>
      have hjoin : joinSep ", " (a :: rest) ≠ "" := by
        apply joinSep_ne_empty _ _ (by simp)
        intro x hx
        apply load_keys_ne_empty env x
        rw [← havail] at hx
        exact hx
      have hb : (joinSep ", " (a :: rest) == "") = false := by simp [hjoin]
      simp only [hb, Bool.false_eq_true, if_false]
      simp

theorem claim_c6_witness :
    ("zzz" : String) ≠ "" ∧
    mapGet (loadWorkspaceConfig envPersonal).workspaces (lowerStr "zzz") = none ∧
    (getInstanceContext (loadWorkspaceConfig envPersonal) (some "zzz") = none ∧
     getClient (loadWorkspaceConfig envPersonal) mgr0 (some "zzz") = (none, mgr0)) ∧
    getWorkspaceNotFoundError (loadWorkspaceConfig envPersonal) (some "zzz") =
      "Workspace \x27zzz\x27 not found. Available workspaces: " ++
        (if getAvailableWorkspaces (loadWorkspaceConfig envPersonal) = [] then "none"
         else joinSep ", " (getAvailableWorkspaces (loadWorkspaceConfig envPersonal))) :=
  ⟨by decide, by decide,
   (claim_c6_amended (loadWorkspaceConfig envPersonal) mgr0 envPersonal "zzz" "zzz").1
     (by decide) (by decide),
   (claim_c6_amended (loadWorkspaceConfig envPersonal) mgr0 envPersonal "zzz" "zzz").2.2
     (by decide)⟩

/-- C7: when the supplied name's lower-casing is a key of the workspaces map
(lookup is case-insensitive), resolution yields an execution context whose
`n8nApiUrl` is the workspace's url, whose `n8nApiKey` is its token, and whose
`instanceId` is `"workspace-"` followed by the workspace's lower-case name;
and when no name is supplied and a default exists, resolution yields the
default workspace's context the same way. -/
theorem claim_c7_resolution_context (env : Env) (s d : String) (w : WorkspaceConfig) :
    (mapGet (loadWorkspaceConfig env).workspaces (lowerStr s) = some w →
      getInstanceContext (loadWorkspaceConfig env) (some s) =
        some { n8nApiUrl := w.url, n8nApiKey := w.token,
               instanceId := "workspace-" ++ w.name } ∧
      w.name = lowerStr s ∧ lowerStr (lowerStr s) = lowerStr s) ∧
    ((loadWorkspaceConfig env).defaultWorkspace = some d →
      mapHas (loadWorkspaceConfig env).workspaces d = true ∧
      getInstanceContext (loadWorkspaceConfig env) none =
        (mapGet (loadWorkspaceConfig env).workspaces d).map workspaceToInstanceContext) := by
  constructor
  · intro hw
    obtain ⟨hname, hlow, hne⟩ := load_key_facts env _ w hw
    have hs : s ≠ "" := by
      intro hc
      apply hne
      rw [hc] at hw ⊢
      rfl
    refine ⟨?_, hname, lowerStr_idem s⟩
    rw [getInstanceContext, getWorkspace_some_of_ne _ s hs, hw]
    rfl
  · intro hd
    have hhas : mapHas (loadWorkspaceConfig env).workspaces d = true := by
      rw [load_default_eq] at hd
      have hmem := computeDefault_mem env _ d hd
      rw [← load_workspaces_eq] at hmem
      exact hmem
    refine ⟨hhas, ?_⟩
    have hdne : d ≠ "" := by
      apply load_keys_ne_empty env d
      exact (mapHas_eq_true_iff _ _).mp hhas
    rw [getInstanceContext]
    unfold getWorkspace
    rw [hd]
    have htr : (!(truthy (some d))) = false := by simp [truthy, hdne]
    simp only [htr, Bool.false_eq_true, if_false]
    rfl

theorem claim_c7_witness :
    mapGet (loadWorkspaceConfig envPersonal).workspaces (lowerStr "PERSONAL") =
      some wPersonal ∧
    (getInstanceContext (loadWorkspaceConfig envPersonal) (some "PERSONAL") =
       some { n8nApiUrl := wPersonal.url, n8nApiKey := wPersonal.token,
              instanceId := "workspace-" ++ wPersonal.name } ∧
     wPersonal.name = lowerStr "PERSONAL" ∧
     lowerStr (lowerStr "PERSONAL") = lowerStr "PERSONAL") :=
  ⟨by decide,
   (claim_c7_resolution_context envPersonal "PERSONAL" "personal" wPersonal).1
     (by decide)⟩
